import Mathlib

/-!
Verification of the URL-inspection, link-extraction and HLS-fetch logic of
`src/app.py` (a Streamlit video-download tool).  The Python code is shallowly
embedded: the HTTP network is an explicit `World` of response functions,
strings model byte buffers, and every helper of the Python standard library
that the code uses (`str.splitlines`, `str.strip`, `os.path.splitext`,
`urllib.parse.urljoin`, ...) is given an executable Lean model.
-/

/-! ## Models of Python string primitives -/

/-- Model of Python `str.startswith` (`pyStartsWith s pre` ↔ `s.startswith(pre)`). -/
def pyStartsWith (s pre : String) : Bool :=
  pre.toList.isPrefixOf s.toList

/-- Model of Python `str.endswith`. -/
def pyEndsWith (s suf : String) : Bool :=
  suf.toList.isSuffixOf s.toList

/-- Occurrence of `needle` as a contiguous sublist of `hay`. -/
def subOccurs (needle : List Char) : List Char → Bool
  | [] => needle.isEmpty
  | c :: rest => needle.isPrefixOf (c :: rest) || subOccurs needle rest

/-- Model of Python `needle in hay` for strings. -/
def pyIn (needle hay : String) : Bool :=
  subOccurs needle.toList hay.toList

/-- ASCII lowercasing, modelling Python `str.lower` on the ASCII inputs the
program handles. -/
def pyLower (s : String) : String :=
  (s.toList.map Char.toLower).asString

/-- Python whitespace characters recognised by `str.strip`/`bytes.lstrip`. -/
def pyIsSpace (c : Char) : Bool :=
  c == ' ' || c == '\t' || c == '\n' || c == '\r' || c.toNat == 11 || c.toNat == 12

/-- Model of Python `str.strip()` (no argument: strips whitespace). -/
def pyStrip (s : String) : String :=
  (((s.toList.dropWhile pyIsSpace).reverse.dropWhile pyIsSpace).reverse).asString

/-- Model of Python `bytes.lstrip()` / `str.lstrip()`. -/
def pyLstrip (s : String) : String :=
  (s.toList.dropWhile pyIsSpace).asString

/-- Model of Python `str.lstrip(".")`. -/
def pyLstripDots (s : String) : String :=
  (s.toList.dropWhile (fun c => c == '.')).asString

/-- Helper of `pySplitlines`: `acc` holds the current (reversed) line; the
fuel is at least the length of the remaining input, so the fuel-exhausted
case is never reached. -/
def pySplitlinesAux : Nat → List Char → List Char → List String
  | _, [], [] => []
  | _, [], acc => [acc.reverse.asString]
  | 0, _ :: _, acc => [acc.reverse.asString]
  | fuel + 1, c :: rest, acc =>
    if c == '\n' then acc.reverse.asString :: pySplitlinesAux fuel rest []
    else if c == '\r' then
      match rest with
      | nl :: rest2 =>
        if nl == '\n' then acc.reverse.asString :: pySplitlinesAux fuel rest2 []
        else acc.reverse.asString :: pySplitlinesAux fuel rest []
      | [] => [acc.reverse.asString]
    else pySplitlinesAux fuel rest (c :: acc)

/-- Model of Python `str.splitlines()` for the `\n`, `\r\n` and `\r`
terminators (no trailing empty line for a trailing terminator). -/
def pySplitlines (s : String) : List String :=
  pySplitlinesAux s.toList.length s.toList []

/-- Split a character list on a separator character; models Python
`str.split(sep)` for a one-character separator. -/
def splitOnChar (sep : Char) : List Char → List (List Char)
  | [] => [[]]
  | c :: rest =>
    match splitOnChar sep rest with
    | [] => [[]]
    | grp :: grps => if c == sep then [] :: grp :: grps else (c :: grp) :: grps

/-- First occurrence of `needle` in a list: returns the parts strictly before
and strictly after it. -/
def splitFirstAux (needle : List Char) : List Char → Option (List Char × List Char)
  | [] => none
  | c :: rest =>
    if needle.isPrefixOf (c :: rest) then some ([], (c :: rest).drop needle.length)
    else
      match splitFirstAux needle rest with
      | some (a, b) => some (c :: a, b)
      | none => none

/-- Model of Python `part.split("=", 1)[1]`: everything after the first `=`
(the callers only evaluate it when a `=` is present). -/
def pyAfterFirstEq (part : String) : String :=
  match splitFirstAux ['='] part.toList with
  | some (_, b) => b.asString
  | none => ""

/-! ## Models of `urllib.parse` / `os.path` helpers -/

/-- Modelled from `urllib.parse.urlparse(u).path`: the fragment and query are
cut off, and for a URL with a `://` scheme separator the path starts at the
first `/` after the authority (empty if there is none).  A reference without
a scheme is treated as all path, which covers every use in this program. -/
def urlPath (u : String) : String :=
  let noQuery := (u.toList.takeWhile (fun c => c ≠ '#')).takeWhile (fun c => c ≠ '?')
  match splitFirstAux "://".toList noQuery with
  | none => noQuery.asString
  | some (_, rest) => (rest.dropWhile (fun c => c ≠ '/')).asString

/-- Model of `os.path.basename`: the part after the last `/`. -/
def pyBasename (p : String) : String :=
  ((p.toList.reverse.takeWhile (fun c => c ≠ '/')).reverse).asString

/-- Split a filename (no slashes) at its last dot: returns the part before
the dot and the suffix starting with the dot. -/
def lastDotSplit : List Char → Option (List Char × List Char)
  | [] => none
  | c :: rest =>
    match lastDotSplit rest with
    | some (a, b) => some (c :: a, b)
    | none => if c == '.' then some ([], c :: rest) else none

/-- Model of `os.path.splitext`: the extension is the suffix of the basename
starting at its last dot, unless every character before that dot (within the
basename) is itself a dot. -/
def pySplitext (p : String) : String × String :=
  let base := (p.toList.reverse.takeWhile (fun c => c ≠ '/')).reverse
  match lastDotSplit base with
  | none => (p, "")
  | some (root, ext) =>
    if root.all (fun c => c == '.') then (p, "")
    else ((p.toList.take (p.toList.length - ext.length)).asString, ext.asString)

/-- The scheme of a URL (the part before `://`). -/
def schemeOf (u : String) : String :=
  match splitFirstAux "://".toList u.toList with
  | some (a, _) => a.asString
  | none => ""

/-- Scheme plus authority of a URL: everything up to the first `/` after
`://`. -/
def schemeHostOf (u : String) : String :=
  match splitFirstAux "://".toList u.toList with
  | some (sch, rest) => sch.asString ++ "://" ++ (rest.takeWhile (fun c => c ≠ '/')).asString
  | none => u

/-- Everything up to and including the last `/` of `u`. -/
def baseDir (u : String) : String :=
  ((u.toList.reverse.dropWhile (fun c => c ≠ '/')).reverse).asString

/-- Modelled from `urllib.parse.urljoin`, restricted to the shapes this
program produces: an empty reference keeps the base; an absolute `http(s)`
reference replaces it; a `//`-reference keeps only the scheme; a `/`-rooted
reference replaces the base path; any other reference replaces the last path
segment of the base.  Dot segments (`.`/`..`) are not normalised. -/
def urljoin (base ref : String) : String :=
  if ref = "" then base
  else if pyStartsWith ref "http://" || pyStartsWith ref "https://" then ref
  else if pyStartsWith ref "//" then schemeOf base ++ ":" ++ ref
  else if pyStartsWith ref "/" then schemeHostOf base ++ ref
  else baseDir base ++ ref

/-! ## Data model (from `src/app.py`) -/

/-- `MIME_MAP` of `src/app.py` (lines 14–20), as an association list. -/
def MIME_MAP : List (String × String) :=
  [("mp4", "video/mp4"), ("mov", "video/quicktime"), ("avi", "video/x-msvideo"),
   ("mkv", "video/x-matroska"), ("ts", "video/mp2t")]

/-- The option dictionaries built by `src/app.py` (label/url/extension/mime/
type, plus the optional `format_id` of the yt-dlp path). -/
structure DownloadOption where
  label : String
  url : String
  extension : String
  mime : String
  type : String
  format_id : Option String
deriving DecidableEq, Repr

/-- An HTTP response as the program observes it: status code, the
`Content-Type` header (`headers.get("Content-Type", "")`), and the body
bytes (modelled as a string). -/
structure HttpResponse where
  status : Nat
  contentType : String
  body : String
deriving DecidableEq, Repr

/-- A network request issued by the program (HEAD or GET), or an invocation
of the external yt-dlp library. -/
inductive Request where
  | headReq (url : String)
  | getReq (url : String)
  | ytdlpReq (url : String)
deriving DecidableEq, Repr

/-- The network/environment: responses of HEAD and GET per URL, plus the two
external yt-dlp operations (format listing and fetch), which `src/app.py`
delegates to the `yt_dlp` library and are modelled as abstract oracles. -/
structure World where
  headResp : String → HttpResponse
  getResp : String → HttpResponse
  ytdlpFormats : String → List DownloadOption × Option String
  ytdlpFetch : String → String → Option String × Option String

/-! ## The regex scans of `extract_video_links`

`src/app.py` (lines 72 and 76) runs `re.findall` with the patterns
`(?:video|source)[^>]+src=["']([^"']+)["']` and
`<a[^>]+href=["']([^"']+)["']`.  The matcher below implements exactly these
shapes: a literal tag alternative, a greedy non-`>` gap, a literal
`attr=`, and a quoted capture of one or more non-quote characters, with
leftmost non-overlapping scanning as `re.findall` does. -/

/-- Is `c` one of the two quote characters of the patterns? -/
def isQuoteChar (c : Char) : Bool :=
  c.toNat == 34 || c.toNat == 39

/-- Match `["']([^"']+)["']` at the head of `cs`: an opening quote, a
nonempty greedy run of non-quote characters (the capture), and a closing
quote.  Returns the capture and the rest of the input. -/
def matchQuotedValue (cs : List Char) : Option (List Char × List Char) :=
  match cs with
  | [] => none
  | q :: rest =>
    if isQuoteChar q then
      let run := rest.takeWhile (fun c => !(isQuoteChar c))
      let rest2 := rest.drop run.length
      if run.isEmpty then none
      else
        match rest2 with
        | [] => none
        | q2 :: rest3 => if isQuoteChar q2 then some (run, rest3) else none
    else none

/-- Try the gap `[^>]+` of length exactly `gap`, then the literal `attr`,
then a quoted value; on failure shrink the gap (the regex engine's greedy
backtracking, longest gap first). -/
def matchGap (attr : List Char) (cs : List Char) : Nat → Option (List Char × List Char)
  | 0 => none
  | g + 1 =>
    let after := cs.drop (g + 1)
    match (if attr.isPrefixOf after then matchQuotedValue (after.drop attr.length) else none) with
    | some r => some r
    | none => matchGap attr cs g

/-- Match one of the literal tag alternatives at the head of `cs`, then
`[^>]+attr["'](capture)["']` with a greedy gap. -/
def matchTagAt (tags : List (List Char)) (attr : List Char) (cs : List Char) :
    Option (List Char × List Char) :=
  match tags.find? (fun t => t.isPrefixOf cs) with
  | none => none
  | some t =>
    let rest := cs.drop t.length
    matchGap attr rest (rest.takeWhile (fun c => c ≠ '>')).length

/-- Leftmost, non-overlapping scan of `re.findall`: try the pattern at each
position; on a match record the capture and resume after the match.  The
fuel is at least the input length, so it never runs out. -/
def findAttrAllAux (tags : List (List Char)) (attr : List Char) :
    Nat → List Char → List String
  | 0, _ => []
  | _ + 1, [] => []
  | fuel + 1, c :: rest =>
    match matchTagAt tags attr (c :: rest) with
    | some (cap, remaining) => cap.asString :: findAttrAllAux tags attr fuel remaining
    | none => findAttrAllAux tags attr fuel rest

/-- All captures of the pattern `tags[^>]+attr["']([^"']+)["']` in `s`. -/
def findAttrAll (tags : List String) (attr : String) (s : String) : List String :=
  findAttrAllAux (tags.map String.toList) attr.toList s.toList.length s.toList

/-! ## Sorting the candidate set

`extract_video_links` collects candidates in a Python `set` and iterates
`sorted(candidates)`; Python sorts strings lexicographically by code point.
The model inserts every candidate into a strictly sorted list, skipping
duplicates. -/

/-- Code-point lexicographic order on character lists (Python's `<` on
strings). -/
def charListLt : List Char → List Char → Bool
  | [], [] => false
  | [], _ :: _ => true
  | _ :: _, [] => false
  | a :: as, b :: bs =>
    if a.toNat < b.toNat then true
    else if a.toNat = b.toNat then charListLt as bs
    else false

/-- Python's `<` on strings. -/
def strLtB (a b : String) : Bool :=
  charListLt a.toList b.toList

/-- Insert into a strictly sorted list, dropping the element if an equal one
is already present. -/
def insertSorted (x : String) : List String → List String
  | [] => [x]
  | y :: ys =>
    if strLtB x y then x :: y :: ys
    else if strLtB y x then y :: insertSorted x ys
    else y :: ys

/-- Model of Python `sorted(set(l))`: the strictly increasing enumeration of
the distinct elements of `l`. -/
def sortedDedup (l : List String) : List String :=
  l.foldr insertSorted []

/-! ## `extract_video_links` (src/app.py lines 67–109) -/

/-- The allow-list `allowed_ext` of `extract_video_links`. -/
def allowed_ext : List String :=
  ["mp4", "mov", "avi", "mkv", "m3u8", "ts"]

/-- Line 84: `os.path.splitext(urlparse(link).path)[1].lstrip(".").lower()`. -/
def linkExtOf (link : String) : String :=
  pyLower (pyLstripDots (pySplitext (urlPath link)).2)

/-- The option built from one resolved candidate link, or `none` when its
extension is not in the allow-list (the body of the `for link in
sorted(candidates)` loop). -/
def linkOption (link : String) : Option DownloadOption :=
  if allowed_ext.contains (linkExtOf link) then
    if linkExtOf link == "m3u8" then
      some { label := "HLS (m3u8)", url := link, extension := "ts",
             mime := (MIME_MAP.lookup "ts").getD "video/mp4", type := "hls",
             format_id := none }
    else
      some { label := "Видео (" ++ linkExtOf link ++ ")", url := link,
             extension := linkExtOf link,
             mime := (MIME_MAP.lookup (linkExtOf link)).getD "video/mp4", type := "direct",
             format_id := none }
  else none

/-- `extract_video_links(html, base_url)`: regex-scan for `video`/`source`
`src` attributes and anchor `href` attributes, resolve each against the base
URL, deduplicate, sort, and keep the allow-listed extensions. -/
def extract_video_links (html base_url : String) : List DownloadOption :=
  let vidMatches := findAttrAll ["video", "source"] "src=" html
  let aMatches := findAttrAll ["<a"] "href=" html
  let candidates := (vidMatches ++ aMatches).map (fun m => urljoin base_url m)
  (sortedDedup candidates).filterMap linkOption

/-! ## The content fetchers (src/app.py lines 24–63) -/

/-- `download_file(url)`: one streamed GET; `None` on a non-200 status, the
accumulated body otherwise.  The second component records the requests
issued. -/
def download_file (w : World) (url : String) : Option String × List Request :=
  if (w.getResp url).status != 200 then (none, [Request.getReq url])
  else (some (w.getResp url).body, [Request.getReq url])

/-- The segment URLs of a playlist body: non-empty lines not starting with
`#`, each stripped and resolved against the playlist URL. -/
def segmentUrls (playlist_url : String) (lines : List String) : List String :=
  (lines.filter (fun l => l ≠ "" && !(pyStartsWith l "#"))).map
    (fun l => urljoin playlist_url (pyStrip l))

/-- The sequential segment loop of `download_hls_playlist`: GET each segment
in order, abort with `none` on the first non-200 status, otherwise
concatenate the bodies in order. -/
def fetchSegments (w : World) : List String → Option String × List Request
  | [] => (some "", [])
  | u :: rest =>
    if (w.getResp u).status != 200 then (none, [Request.getReq u])
    else
      ((fetchSegments w rest).1.map (fun tail => (w.getResp u).body ++ tail),
       Request.getReq u :: (fetchSegments w rest).2)

/-- `download_hls_playlist(playlist_url)`: GET the playlist, build the
segment URL list, `None` if the playlist GET fails or no segments exist,
otherwise the concatenation of all segment bodies. -/
def download_hls_playlist (w : World) (playlist_url : String) :
    Option String × List Request :=
  if (w.getResp playlist_url).status != 200 then (none, [Request.getReq playlist_url])
  else if (segmentUrls playlist_url (pySplitlines (w.getResp playlist_url).body)).isEmpty then
    (none, [Request.getReq playlist_url])
  else
    ((fetchSegments w (segmentUrls playlist_url (pySplitlines (w.getResp playlist_url).body))).1,
     Request.getReq playlist_url ::
       (fetchSegments w (segmentUrls playlist_url (pySplitlines (w.getResp playlist_url).body))).2)

/-! ## `inspect_url` (src/app.py lines 188–279) -/

/-- The probe of `inspect_url` (lines 190–197): a HEAD request; fail unless
the status is 200, 206 or 405; on 405 retry with a GET and fail unless that
returns 200.  The response whose headers the rest of `inspect_url` reads. -/
def probeResponse (w : World) (url : String) : Option HttpResponse :=
  if !([200, 206, 405].contains (w.headResp url).status) then none
  else if (w.headResp url).status == 405 then
    if (w.getResp url).status != 200 then none else some (w.getResp url)
  else some (w.headResp url)

/-- The requests issued by the probe. -/
def probeLog (w : World) (url : String) : List Request :=
  if !([200, 206, 405].contains (w.headResp url).status) then [Request.headReq url]
  else if (w.headResp url).status == 405 then [Request.headReq url, Request.getReq url]
  else [Request.headReq url]

/-- Line 229 of `src/app.py`: `line.startswith("#EXT-X-STREAM-INF")`. -/
def isStreamInf (line : String) : Bool :=
  pyStartsWith line "#EXT-X-STREAM-INF"

/-- Lines 230–233: the resolution attribute of a stream-info line — split on
commas, and for every part whose stripped form starts with `RESOLUTION=`
take the text after the first `=` (the last such part wins); default
`"неизвестно"`. -/
def resolutionOf (line : String) : String :=
  ((splitOnChar ',' line.toList).map List.asString).foldl
    (fun acc part =>
      if pyStartsWith (pyStrip part) "RESOLUTION=" then pyAfterFirstEq part else acc)
    "неизвестно"

/-- Lines 236–245: the variant option for a stream-info line `line` followed
by the playlist line `next`. -/
def variantOption (url line next : String) : DownloadOption :=
  { label := "HLS " ++ resolutionOf line,
    url := urljoin url (pyStrip next),
    extension := "ts",
    mime := (MIME_MAP.lookup "ts").getD "video/mp4",
    type := "hls",
    format_id := none }

/-- Lines 226–245: the enumerate loop over the playlist lines — a variant
option for every stream-info line that still has a following line. -/
def hlsVariantOptions (url : String) : List String → List DownloadOption
  | [] => []
  | line :: rest =>
    (if isStreamInf line then
      match rest with
      | next :: _ => [variantOption url line next]
      | [] => []
    else []) ++ hlsVariantOptions url rest

/-- Lines 250–259: the whole-playlist fallback option. -/
def fallbackOption (url : String) : DownloadOption :=
  { label := "HLS (без выбора качества)",
    url := url,
    extension := "ts",
    mime := (MIME_MAP.lookup "ts").getD "video/mp4",
    type := "hls",
    format_id := none }

/-- Lines 263–265: the extension of the direct branch — basename of the URL
path, its `splitext` extension with the leading dots stripped, default
`mp4`. -/
def directExtension (url : String) : String :=
  let e := pyLstripDots (pySplitext (pyBasename (urlPath url))).2
  if e = "" then "mp4" else e

/-- Lines 268–277: the single option of the direct branch. -/
def directOption (url : String) : DownloadOption :=
  { label := "Оригинал (" ++ directExtension url ++ ")",
    url := url,
    extension := directExtension url,
    mime := (MIME_MAP.lookup (directExtension url)).getD "video/mp4",
    type := "direct",
    format_id := none }

/-- `inspect_url(url)`: probe, then branch on the content type — HTML page
(run the link extractor), HLS playlist (`mpegurl` in the content type or the
lowercased URL ends in `.m3u8`; parse variant streams with the whole-playlist
fallback), or direct media.  Returns `(options, error_message)` plus the
request log. -/
def inspect_url (w : World) (url : String) : (List DownloadOption × Option String) × List Request :=
  match probeResponse w url with
  | none =>
    (([], some "Не удалось открыть ссылку: сервер вернул неуспешный статус."), probeLog w url)
  | some r =>
    if pyIn "text/html" (pyLower r.contentType) then
      if (w.getResp url).status != 200 then
        (([], some "Ссылка ведет на HTML-страницу, но страницу не удалось открыть."),
         probeLog w url ++ [Request.getReq url])
      else if (extract_video_links (w.getResp url).body url).isEmpty then
        (([], some "На странице не найдено прямых ссылок на видео или плейлист. Такое бывает, если видео подгружается скриптами, используется blob: URL или требуется авторизация."),
         probeLog w url ++ [Request.getReq url])
      else
        ((extract_video_links (w.getResp url).body url, none),
         probeLog w url ++ [Request.getReq url])
    else if pyIn "mpegurl" (pyLower r.contentType) || pyEndsWith (pyLower url) ".m3u8" then
      if (w.getResp url).status != 200 then
        (([], some "Не удалось открыть плейлист: сервер вернул неуспешный статус."),
         probeLog w url ++ [Request.getReq url])
      else if (hlsVariantOptions url (pySplitlines (w.getResp url).body)).isEmpty then
        (([fallbackOption url], none), probeLog w url ++ [Request.getReq url])
      else
        ((hlsVariantOptions url (pySplitlines (w.getResp url).body), none),
         probeLog w url ++ [Request.getReq url])
    else
      (([directOption url], none), probeLog w url)

/-! ## The button handlers (src/app.py lines 303–431) -/

/-- `get_ytdlp_options` delegates entirely to the external `yt_dlp` library;
its result is the world's oracle, and the invocation is logged. -/
def get_ytdlp_options (w : World) (url : String) :
    (List DownloadOption × Option String) × List Request :=
  (w.ytdlpFormats url, [Request.ytdlpReq url])

/-- Outcome of the "Проверить ссылку" (inspect) handler. -/
inductive InspectOutcome where
  | emptyUrl
  | invalidScheme
  | failure (message : String)
  | noFormats
  | formatsFound (options : List DownloadOption)
deriving DecidableEq, Repr

/-- The inspect handler (lines 303–333): reject an empty URL, then a URL not
starting with `http://`/`https://`, then run `get_ytdlp_options` or
`inspect_url` and render its error, the no-options error, or the options. -/
def inspectAction (w : World) (url : String) (use_ytdlp : Bool) :
    InspectOutcome × List Request :=
  if url = "" then (InspectOutcome.emptyUrl, [])
  else if !(pyStartsWith url "http://" || pyStartsWith url "https://") then
    (InspectOutcome.invalidScheme, [])
  else
    match (if use_ytdlp then get_ytdlp_options w url else inspect_url w url) with
    | ((_, some msg), log) => (InspectOutcome.failure msg, log)
    | ((opts, none), log) =>
      if opts.isEmpty then (InspectOutcome.noFormats, log)
      else (InspectOutcome.formatsFound opts, log)

/-- Outcome of the "Скачать видео" (download) handler. -/
inductive DownloadOutcome where
  | emptyUrl
  | invalidScheme
  | noOptionsYet
  | optionNotFound
  | fetchFailed
  | htmlPayload
  | fileReady (fileName mime data : String)
deriving DecidableEq, Repr

/-- Lines 374–388: fetch the bytes for the selected option (yt-dlp, HLS, or
direct), returning the data, the yt-dlp-provided file name (when that path
ran), and the request log. -/
def fetchSelected (w : World) (opt : DownloadOption) :
    (Option String × Option String) × List Request :=
  if opt.type == "ytdlp" then
    ((w.ytdlpFetch opt.url (opt.format_id.getD "best")), [Request.ytdlpReq opt.url])
  else if opt.type == "hls" then
    (((download_hls_playlist w opt.url).1, none), (download_hls_playlist w opt.url).2)
  else
    (((download_file w opt.url).1, none), (download_file w opt.url).2)

/-- Lines 379–382 and 400–404: the base file name — from the yt-dlp name
when present and non-empty, else `video` on the yt-dlp path, else the stem
of the URL path's basename, default `video`. -/
def downloadBaseName (url : String) (opt : DownloadOption) (nm : Option String) : String :=
  if opt.type == "ytdlp" then
    match nm with
    | some n =>
      if n == "" then "video"
      else if (pySplitext n).1 == "" then "video" else (pySplitext n).1
    | none => "video"
  else
    if (pySplitext (pyBasename (urlPath url))).1 == "" then "video"
    else (pySplitext (pyBasename (urlPath url))).1

/-- Line 393: the post-fetch HTML check — the buffer, left-stripped and
lowercased, starts with `<!doctype html` or `<html`. -/
def isHtmlPayload (data : String) : Bool :=
  pyStartsWith (pyLower (pyLstrip data)) "<!doctype html" ||
  pyStartsWith (pyLower (pyLstrip data)) "<html"

/-- The download handler (lines 346–425): validate the URL, require a
non-empty option list and a selected option, fetch, fail on `None` data or
an HTML payload, otherwise offer the named file. -/
def downloadAction (w : World) (url : String) (options : List DownloadOption)
    (selected_label : String) : DownloadOutcome × List Request :=
  if url = "" then (DownloadOutcome.emptyUrl, [])
  else if !(pyStartsWith url "http://" || pyStartsWith url "https://") then
    (DownloadOutcome.invalidScheme, [])
  else if options.isEmpty then (DownloadOutcome.noOptionsYet, [])
  else
    match options.find? (fun o => o.label == selected_label) with
    | none => (DownloadOutcome.optionNotFound, [])
    | some opt =>
      match (fetchSelected w opt).1.1 with
      | none => (DownloadOutcome.fetchFailed, (fetchSelected w opt).2)
      | some data =>
        if isHtmlPayload data then (DownloadOutcome.htmlPayload, (fetchSelected w opt).2)
        else
          (DownloadOutcome.fileReady
            (downloadBaseName url opt (fetchSelected w opt).1.2 ++ "." ++ opt.extension)
            opt.mime data,
           (fetchSelected w opt).2)

/-! ## Concatenation helper and concrete fixtures -/

/-- Concatenation of a list of buffers in order (what the `BytesIO`
accumulation of the fetchers produces). -/
def strConcat : List String → String
  | [] => ""
  | s :: rest => s ++ strConcat rest

/-- A network where every URL answers 200 with content type `video/mp4` and
an empty body. -/
def wDirect : World where
  headResp := fun _ => { status := 200, contentType := "video/mp4", body := "" }
  getResp := fun _ => { status := 200, contentType := "video/mp4", body := "" }
  ytdlpFormats := fun _ => ([], none)
  ytdlpFetch := fun _ _ => (none, none)

/-- A URL whose path ends in `.m3u8` but whose full text does not. -/
def c1Url : String := "http://host/video.m3u8?token=1"

/-- A media playlist URL (no variant streams). -/
def flatUrl : String := "http://h/p.m3u8"

/-- A network serving a media playlist with two segments, both available. -/
def wFlat : World where
  headResp := fun _ =>
    { status := 200, contentType := "application/vnd.apple.mpegurl", body := "" }
  getResp := fun u =>
    if u == "http://h/p.m3u8" then
      { status := 200, contentType := "application/vnd.apple.mpegurl",
        body := "#EXTM3U\ns1.ts\ns2.ts" }
    else if u == "http://h/s1.ts" then { status := 200, contentType := "", body := "AAA" }
    else if u == "http://h/s2.ts" then { status := 200, contentType := "", body := "BB" }
    else { status := 404, contentType := "", body := "" }
  ytdlpFormats := fun _ => ([], none)
  ytdlpFetch := fun _ _ => (none, none)

/-- Like `wFlat`, but the second segment answers 404. -/
def wSegFail : World where
  headResp := fun _ =>
    { status := 200, contentType := "application/vnd.apple.mpegurl", body := "" }
  getResp := fun u =>
    if u == "http://h/p.m3u8" then
      { status := 200, contentType := "application/vnd.apple.mpegurl",
        body := "#EXTM3U\ns1.ts\ns2.ts" }
    else if u == "http://h/s1.ts" then { status := 200, contentType := "", body := "AAA" }
    else { status := 404, contentType := "", body := "" }
  ytdlpFormats := fun _ => ([], none)
  ytdlpFetch := fun _ _ => (none, none)

/-- A master playlist URL. -/
def masterUrl : String := "http://h/master.m3u8"

/-- A network serving a master playlist with two variant streams. -/
def wMaster : World where
  headResp := fun _ =>
    { status := 200, contentType := "application/vnd.apple.mpegurl", body := "" }
  getResp := fun u =>
    if u == "http://h/master.m3u8" then
      { status := 200, contentType := "application/vnd.apple.mpegurl",
        body := "#EXTM3U\n#EXT-X-STREAM-INF:BANDWIDTH=1,RESOLUTION=640x360\nlow.m3u8\n#EXT-X-STREAM-INF:BANDWIDTH=2,RESOLUTION=1280x720\nhi.m3u8" }
    else { status := 200, contentType := "video/mp2t", body := "SEG" }
  ytdlpFormats := fun _ => ([], none)
  ytdlpFetch := fun _ _ => (none, none)

/-- A network whose GET answers 200 but delivers an HTML error page. -/
def wHtmlBody : World where
  headResp := fun _ => { status := 200, contentType := "video/mp4", body := "" }
  getResp := fun _ =>
    { status := 200, contentType := "video/mp4",
      body := "  \n<HTML><body>error page</body></HTML>" }
  ytdlpFormats := fun _ => ([], none)
  ytdlpFetch := fun _ _ => (none, none)

/-- The HTML page of the link-extractor example: one `video` tag and one
anchor. -/
def c6Html : String := "<video src=\"a.mp4\"></video><a href=\"b.m3u8\">x</a>"

/-- Base URL of the link-extractor example. -/
def c6Base : String := "http://e.com/"

/-! ## Helper lemmas -/

theorem strConcat_length (l : List String) :
    (strConcat l).length = (l.map String.length).sum := by
  induction l with
  | nil => rfl
  | cons a t ih => simp [strConcat, String.length_append, ih]

theorem strConcat_data_cons (a : String) (l : List String) :
    (strConcat (a :: l)).data = a.data ++ (strConcat l).data :=
  String.data_append a (strConcat l)

theorem fetchSegments_all_ok (w : World) (us : List String)
    (h : ∀ u ∈ us, (w.getResp u).status = 200) :
    (fetchSegments w us).1 = some (strConcat (us.map (fun u => (w.getResp u).body))) := by
  induction us with
  | nil => rfl
  | cons u rest ih =>
    have hu : (w.getResp u).status = 200 := h u (List.mem_cons_self u rest)
    have hrest := ih (fun v hv => h v (List.mem_cons_of_mem u hv))
    simp [fetchSegments, hu, hrest, strConcat]

theorem fetchSegments_fail (w : World) (us : List String) (u : String)
    (hu : u ∈ us) (hf : (w.getResp u).status ≠ 200) :
    (fetchSegments w us).1 = none := by
  induction us with
  | nil => cases hu
  | cons v rest ih =>
    by_cases hv : (w.getResp v).status = 200
    · have hurest : u ∈ rest := by
        rcases List.mem_cons.mp hu with h | h
        · exact absurd hv (h ▸ hf)
        · exact h
      simp [fetchSegments, hv, ih hurest]
    · simp [fetchSegments, hv]

theorem mem_hlsVariantOptions (url : String) (lines : List String) (opt : DownloadOption)
    (h : opt ∈ hlsVariantOptions url lines) :
    opt.type = "hls" ∧ opt.extension = "ts" ∧ opt.mime = "video/mp2t" := by
  induction lines with
  | nil => cases h
  | cons line rest ih =>
    simp only [hlsVariantOptions, List.mem_append] at h
    rcases h with h | h
    · by_cases hs : isStreamInf line
      · rw [if_pos hs] at h
        cases rest with
        | nil => cases h
        | cons next r2 =>
          have : opt = variantOption url line next := List.mem_singleton.mp h
          subst this
          exact ⟨rfl, rfl, rfl⟩
      · rw [if_neg hs] at h; cases h
    · exact ih h

theorem hlsVariantOptions_skip (url : String) (pre rest : List String)
    (h : ∀ l ∈ pre, isStreamInf l = false) :
    hlsVariantOptions url (pre ++ rest) = hlsVariantOptions url rest := by
  induction pre with
  | nil => rfl
  | cons p ps ih =>
    have hp : isStreamInf p = false := h p (List.mem_cons_self p ps)
    have hps := ih (fun l hl => h l (List.mem_cons_of_mem p hl))
    simp [hlsVariantOptions, hp, hps]

theorem hlsVariantOptions_nil (url : String) (ls : List String)
    (h : ∀ l ∈ ls, isStreamInf l = false) :
    hlsVariantOptions url ls = [] := by
  have := hlsVariantOptions_skip url ls [] h
  simpa using this

theorem hlsVariantOptions_cons_inf (url line next : String) (rest : List String)
    (h : isStreamInf line = true) :
    hlsVariantOptions url (line :: next :: rest) =
      variantOption url line next :: hlsVariantOptions url (next :: rest) := by
  simp [hlsVariantOptions, h]

theorem linkOption_url (link : String) (opt : DownloadOption)
    (h : linkOption link = some opt) : opt.url = link := by
  unfold linkOption at h
  split at h
  · split at h
    · obtain rfl := Option.some.inj h; rfl
    · obtain rfl := Option.some.inj h; rfl
  · cases h

theorem linkOption_hls_fields (link : String) (opt : DownloadOption)
    (h : linkOption link = some opt) (ht : opt.type = "hls") :
    opt.extension = "ts" ∧ opt.mime = "video/mp2t" := by
  unfold linkOption at h
  split at h
  · split at h
    · obtain rfl := Option.some.inj h; exact ⟨rfl, rfl⟩
    · obtain rfl := Option.some.inj h; simp at ht
  · cases h

theorem mem_extract_hls (html base : String) (opt : DownloadOption)
    (h : opt ∈ extract_video_links html base) (ht : opt.type = "hls") :
    opt.extension = "ts" ∧ opt.mime = "video/mp2t" := by
  simp only [extract_video_links, List.mem_filterMap] at h
  obtain ⟨link, _, hl⟩ := h
  exact linkOption_hls_fields link opt hl ht

theorem charListLt_irrefl (l : List Char) : charListLt l l = false := by
  induction l with
  | nil => rfl
  | cons a t ih => simp [charListLt, ih]

theorem charListLt_trans (a : List Char) : ∀ b c : List Char,
    charListLt a b = true → charListLt b c = true → charListLt a c = true := by
  induction a with
  | nil =>
    intro b c h1 h2
    cases b with
    | nil => simp [charListLt] at h1
    | cons bh bt =>
      cases c with
      | nil => simp [charListLt] at h2
      | cons ch ct => simp [charListLt]
  | cons ah tailA ih =>
    intro b c h1 h2
    cases b with
    | nil => simp [charListLt] at h1
    | cons bh bt =>
      cases c with
      | nil => simp [charListLt] at h2
      | cons ch ct =>
        simp only [charListLt] at h1 h2 ⊢
        split_ifs at h1 h2 ⊢ <;>
          first
            | rfl
            | (exact ih bt ct h1 h2)
            | (exfalso; omega)
  
theorem strLtB_trans (a b c : String) (h1 : strLtB a b = true) (h2 : strLtB b c = true) :
    strLtB a c = true :=
  charListLt_trans a.toList b.toList c.toList h1 h2

theorem strLtB_ne (a b : String) (h : strLtB a b = true) : a ≠ b := by
  intro heq
  subst heq
  rw [strLtB, charListLt_irrefl] at h
  cases h

theorem mem_insertSorted (x y : String) (l : List String) (h : y ∈ insertSorted x l) :
    y = x ∨ y ∈ l := by
  induction l with
  | nil => simpa [insertSorted] using h
  | cons a t ih =>
    unfold insertSorted at h
    split_ifs at h
    · rcases List.mem_cons.mp h with rfl | h2
      · exact Or.inl rfl
      · exact Or.inr h2
    · rcases List.mem_cons.mp h with rfl | h2
      · exact Or.inr (List.mem_cons_self y t)
      · rcases ih h2 with h3 | h3
        · exact Or.inl h3
        · exact Or.inr (List.mem_cons_of_mem a h3)
    · exact Or.inr h

theorem insertSorted_pairwise (x : String) (l : List String)
    (h : l.Pairwise (fun a b => strLtB a b = true)) :
    (insertSorted x l).Pairwise (fun a b => strLtB a b = true) := by
  induction l with
  | nil => simp [insertSorted]
  | cons a t ih =>
    rw [List.pairwise_cons] at h
    obtain ⟨ha, ht⟩ := h
    unfold insertSorted
    split_ifs with h1 h2
    · refine List.Pairwise.cons ?_ (List.Pairwise.cons ha ht)
      intro z hz
      rcases List.mem_cons.mp hz with rfl | hz2
      · exact h1
      · exact strLtB_trans x a z h1 (ha z hz2)
    · refine List.Pairwise.cons ?_ (ih ht)
      intro z hz
      rcases mem_insertSorted x z t hz with rfl | hz2
      · exact h2
      · exact ha z hz2
    · exact List.Pairwise.cons ha ht

theorem sortedDedup_pairwise (l : List String) :
    (sortedDedup l).Pairwise (fun a b => strLtB a b = true) := by
  unfold sortedDedup
  induction l with
  | nil => simp
  | cons a t ih => exact insertSorted_pairwise a (t.foldr insertSorted []) ih

theorem pairwise_filterMap_url (l : List String)
    (h : l.Pairwise (fun a b => strLtB a b = true)) :
    ((l.filterMap linkOption).map (fun o => o.url)).Pairwise
      (fun a b => strLtB a b = true) := by
  induction l with
  | nil => simp
  | cons a t ih =>
    rw [List.pairwise_cons] at h
    obtain ⟨ha, ht⟩ := h
    cases hla : linkOption a with
    | none => simpa [List.filterMap_cons, hla] using ih ht
    | some opt =>
      simp only [List.filterMap_cons, hla, List.map_cons]
      refine List.Pairwise.cons ?_ (ih ht)
      intro z hz
      rw [List.mem_map] at hz
      obtain ⟨opt2, hopt2, rfl⟩ := hz
      rw [List.mem_filterMap] at hopt2
      obtain ⟨b, hb, hlb⟩ := hopt2
      rw [linkOption_url b opt2 hlb, linkOption_url a opt hla]
      exact ha b hb

theorem inspect_url_hls_branch (w : World) (url : String) (r : HttpResponse)
    (hp : probeResponse w url = some r)
    (hhtml : pyIn "text/html" (pyLower r.contentType) = false)
    (hm : (pyIn "mpegurl" (pyLower r.contentType) || pyEndsWith (pyLower url) ".m3u8") = true)
    (hpl : (w.getResp url).status = 200) :
    (inspect_url w url).1 =
      (if (hlsVariantOptions url (pySplitlines (w.getResp url).body)).isEmpty
       then [fallbackOption url]
       else hlsVariantOptions url (pySplitlines (w.getResp url).body), none) := by
  unfold inspect_url
  rw [hp]
  simp [hhtml, hm, hpl]
  split <;> simp

theorem inspect_url_direct_branch (w : World) (url : String) (r : HttpResponse)
    (hp : probeResponse w url = some r)
    (hhtml : pyIn "text/html" (pyLower r.contentType) = false)
    (hm : (pyIn "mpegurl" (pyLower r.contentType) || pyEndsWith (pyLower url) ".m3u8") = false) :
    (inspect_url w url).1 = ([directOption url], none) := by
  unfold inspect_url
  rw [hp]
  simp [hhtml, hm]

theorem inspect_url_options_cases (w : World) (url : String) :
    (inspect_url w url).1.1 = [] ∨
    (inspect_url w url).1.1 = extract_video_links (w.getResp url).body url ∨
    (inspect_url w url).1.1 = hlsVariantOptions url (pySplitlines (w.getResp url).body) ∨
    (inspect_url w url).1.1 = [fallbackOption url] ∨
    (inspect_url w url).1.1 = [directOption url] := by
  unfold inspect_url
  cases hp : probeResponse w url with
  | none => simp
  | some r =>
    by_cases h1 : pyIn "text/html" (pyLower r.contentType) = true
    · by_cases h2 : (w.getResp url).status = 200
      · by_cases h3 : (extract_video_links (w.getResp url).body url).isEmpty
        · simp [h1, h2, h3]
        · simp [h1, h2, h3]
      · simp [h1, h2]
    · rw [Bool.not_eq_true] at h1
      by_cases h4 : (pyIn "mpegurl" (pyLower r.contentType) || pyEndsWith (pyLower url) ".m3u8") = true
      · by_cases h2 : (w.getResp url).status = 200
        · by_cases h5 : (hlsVariantOptions url (pySplitlines (w.getResp url).body)).isEmpty
          · simp [h1, h2, h4, h5]
          · simp [h1, h2, h4, h5]
        · simp [h1, h2, h4]
      · rw [Bool.not_eq_true] at h4
        simp [h1, h4]

/-! ## Claim theorems -/

/-- Claim C1, counterexample: `c1Url`'s path ends in `.m3u8`, its probe
content type contains neither `mpegurl` nor `text/html`, yet `inspect_url`
emits an option of type `direct` — the code tests the whole URL string, not
the path, so the claim as stated fails. -/
theorem inspect_url_path_m3u8_counterexample :
    pyEndsWith (urlPath c1Url) ".m3u8" = true ∧
    pyIn "mpegurl" (pyLower (wDirect.headResp c1Url).contentType) = false ∧
    (inspect_url wDirect c1Url).1.1.map (fun o => o.type) = ["direct"] := by
  decide

/-- Claim C1, amended: for every URL whose effective probe content type does
not contain `text/html` and either contains `mpegurl` or whose lowercased
full URL ends in `.m3u8`, every option `inspect_url` returns has type
`hls`. -/
theorem inspect_url_m3u8_branch_all_hls (w : World) (url : String) (r : HttpResponse)
    (opt : DownloadOption)
    (hp : probeResponse w url = some r)
    (hhtml : pyIn "text/html" (pyLower r.contentType) = false)
    (hm : (pyIn "mpegurl" (pyLower r.contentType) || pyEndsWith (pyLower url) ".m3u8") = true)
    (hmem : opt ∈ (inspect_url w url).1.1) :
    opt.type = "hls" := by
  by_cases hpl : (w.getResp url).status = 200
  · rw [inspect_url_hls_branch w url r hp hhtml hm hpl] at hmem
    by_cases hempty : (hlsVariantOptions url (pySplitlines (w.getResp url).body)).isEmpty
    · rw [if_pos hempty] at hmem
      rw [List.mem_singleton] at hmem
      subst hmem
      rfl
    · rw [if_neg hempty] at hmem
      exact (mem_hlsVariantOptions url _ opt hmem).1
  · unfold inspect_url at hmem
    rw [hp] at hmem
    simp [hhtml, hm, hpl] at hmem

/-- Witness for the amended C1 at a concrete playlist world. -/
theorem inspect_url_m3u8_branch_all_hls_witness :
    (fallbackOption flatUrl).type = "hls" :=
  inspect_url_m3u8_branch_all_hls wFlat flatUrl
    { status := 200, contentType := "application/vnd.apple.mpegurl", body := "" }
    (fallbackOption flatUrl) (by decide) (by decide) (by decide) (by decide)

/-- Claim C2: whenever the fetched buffer, after stripping leading
whitespace and lowercasing, begins with `<!doctype html` or `<html`, the
download handler ends in the HTML-payload error and offers no file — the
outcome depends only on the buffer, not on the HTTP status. -/
theorem downloadAction_html_payload (w : World) (url selected_label : String)
    (options : List DownloadOption) (opt : DownloadOption) (buf : String)
    (hurl : url ≠ "")
    (hscheme : (pyStartsWith url "http://" || pyStartsWith url "https://") = true)
    (hopts : options.isEmpty = false)
    (hfind : options.find? (fun o => o.label == selected_label) = some opt)
    (hdata : (fetchSelected w opt).1.1 = some buf)
    (hhtml : isHtmlPayload buf = true) :
    (downloadAction w url options selected_label).1 = DownloadOutcome.htmlPayload := by
  unfold downloadAction
  rw [if_neg hurl]
  simp [hscheme, hopts, hfind, hdata, hhtml]

/-- Witness for C2: a direct fetch that answers 200 with an HTML body. -/
theorem downloadAction_html_payload_witness :
    (downloadAction wHtmlBody "http://h/a.mp4" [directOption "http://h/a.mp4"]
      "Оригинал (mp4)").1 = DownloadOutcome.htmlPayload :=
  downloadAction_html_payload wHtmlBody "http://h/a.mp4" "Оригинал (mp4)"
    [directOption "http://h/a.mp4"] (directOption "http://h/a.mp4")
    "  \n<HTML><body>error page</body></HTML>"
    (by decide) (by decide) (by decide) (by decide) (by decide) (by decide)

/-- Claim C3: with every segment GET answering 200, `download_hls_playlist`
returns exactly the concatenation of the segment bodies in playlist order;
its length is the sum of the segment sizes and its first `s1` bytes are
segment 1's body. -/
theorem download_hls_playlist_concat (w : World) (playlist_url u₁ : String)
    (rest : List String)
    (hpl : (w.getResp playlist_url).status = 200)
    (hsegs : segmentUrls playlist_url (pySplitlines (w.getResp playlist_url).body) =
      u₁ :: rest)
    (hok : ∀ u ∈ u₁ :: rest, (w.getResp u).status = 200) :
    (download_hls_playlist w playlist_url).1 =
      some (strConcat ((u₁ :: rest).map (fun u => (w.getResp u).body))) ∧
    (strConcat ((u₁ :: rest).map (fun u => (w.getResp u).body))).length =
      (((u₁ :: rest).map (fun u => (w.getResp u).body)).map String.length).sum ∧
    (strConcat ((u₁ :: rest).map (fun u => (w.getResp u).body))).data.take
        (w.getResp u₁).body.length =
      (w.getResp u₁).body.data := by
  refine ⟨?_, strConcat_length _, ?_⟩
  · unfold download_hls_playlist
    rw [hsegs]
    simp only [hpl]
    rw [fetchSegments_all_ok w (u₁ :: rest) hok]
    simp
  · rw [List.map_cons, strConcat_data_cons]
    exact List.take_left (w.getResp u₁).body.data
      (strConcat (rest.map fun u => (w.getResp u).body)).data

/-- Witness for C3: two segments of sizes 3 and 2 concatenate to `AAABB`. -/
theorem download_hls_playlist_concat_witness :
    (download_hls_playlist wFlat flatUrl).1 =
      some (strConcat (["http://h/s1.ts", "http://h/s2.ts"].map
        (fun u => (wFlat.getResp u).body))) :=
  (download_hls_playlist_concat wFlat flatUrl "http://h/s1.ts" ["http://h/s2.ts"]
    (by decide) (by decide) (by decide)).1

/-- Claim C7: if any segment GET answers a non-200 status,
`download_hls_playlist` returns `None` — no partial concatenation of the
earlier segments is exposed. -/
theorem download_hls_playlist_abort (w : World) (playlist_url u : String)
    (hu : u ∈ segmentUrls playlist_url (pySplitlines (w.getResp playlist_url).body))
    (hfail : (w.getResp u).status ≠ 200) :
    (download_hls_playlist w playlist_url).1 = none := by
  unfold download_hls_playlist
  by_cases hpl : (w.getResp playlist_url).status = 200
  · by_cases hempty :
      (segmentUrls playlist_url (pySplitlines (w.getResp playlist_url).body)).isEmpty
    · simp [hpl, hempty]
    · simp [hpl, hempty, fetchSegments_fail w _ u hu hfail]
  · simp [hpl]

/-- Witness for C7: the second of two segments answers 404. -/
theorem download_hls_playlist_abort_witness :
    (download_hls_playlist wSegFail flatUrl).1 = none :=
  download_hls_playlist_abort wSegFail flatUrl "http://h/s2.ts" (by decide) (by decide)

/-- Claim C4: a playlist with exactly two stream-info lines, each
immediately followed by a variant URL line, yields exactly the two variant
options, in playlist order, with URLs resolved against the playlist URL. -/
theorem inspect_url_two_variants (w : World) (url : String) (r : HttpResponse)
    (pre mid post : List String) (inf1 v1 inf2 v2 : String)
    (hp : probeResponse w url = some r)
    (hhtml : pyIn "text/html" (pyLower r.contentType) = false)
    (hm : (pyIn "mpegurl" (pyLower r.contentType) || pyEndsWith (pyLower url) ".m3u8") = true)
    (hpl : (w.getResp url).status = 200)
    (hlines : pySplitlines (w.getResp url).body =
      pre ++ inf1 :: v1 :: (mid ++ inf2 :: v2 :: post))
    (h1 : isStreamInf inf1 = true) (h2 : isStreamInf inf2 = true)
    (hpre : ∀ l ∈ pre, isStreamInf l = false)
    (hv1 : isStreamInf v1 = false)
    (hmid : ∀ l ∈ mid, isStreamInf l = false)
    (hv2 : isStreamInf v2 = false)
    (hpost : ∀ l ∈ post, isStreamInf l = false) :
    (inspect_url w url).1 =
      ([variantOption url inf1 v1, variantOption url inf2 v2], none) ∧
    (inspect_url w url).1.1.map (fun o => o.url) =
      [urljoin url (pyStrip v1), urljoin url (pyStrip v2)] := by
  have hvar : hlsVariantOptions url (pySplitlines (w.getResp url).body) =
      [variantOption url inf1 v1, variantOption url inf2 v2] := by
    rw [hlines, hlsVariantOptions_skip url pre _ hpre,
        hlsVariantOptions_cons_inf url inf1 v1 _ h1]
    have hskip1 : hlsVariantOptions url (v1 :: (mid ++ inf2 :: v2 :: post)) =
        hlsVariantOptions url (inf2 :: v2 :: post) := by
      have hsplit : v1 :: (mid ++ inf2 :: v2 :: post) =
          (v1 :: mid) ++ inf2 :: v2 :: post := by simp
      rw [hsplit, hlsVariantOptions_skip]
      intro l hl
      rcases List.mem_cons.mp hl with rfl | hin
      · exact hv1
      · exact hmid l hin
    rw [hskip1, hlsVariantOptions_cons_inf url inf2 v2 post h2]
    have hskip2 : hlsVariantOptions url (v2 :: post) = [] := by
      apply hlsVariantOptions_nil
      intro l hl
      rcases List.mem_cons.mp hl with rfl | hin
      · exact hv2
      · exact hpost l hin
    rw [hskip2]
  have hmain : (inspect_url w url).1 =
      ([variantOption url inf1 v1, variantOption url inf2 v2], none) := by
    rw [inspect_url_hls_branch w url r hp hhtml hm hpl, hvar]
    simp
  refine ⟨hmain, ?_⟩
  rw [hmain]
  simp [variantOption]

/-- Witness for C4 at the concrete two-variant master playlist. -/
theorem inspect_url_two_variants_witness :
    (inspect_url wMaster masterUrl).1.1.map (fun o => o.url) =
      [urljoin masterUrl (pyStrip "low.m3u8"), urljoin masterUrl (pyStrip "hi.m3u8")] :=
  (inspect_url_two_variants wMaster masterUrl
    { status := 200, contentType := "application/vnd.apple.mpegurl", body := "" }
    ["#EXTM3U"] [] []
    "#EXT-X-STREAM-INF:BANDWIDTH=1,RESOLUTION=640x360" "low.m3u8"
    "#EXT-X-STREAM-INF:BANDWIDTH=2,RESOLUTION=1280x720" "hi.m3u8"
    (by decide) (by decide) (by decide) (by decide) (by decide) (by decide) (by decide)
    (by decide) (by decide) (by decide) (by decide) (by decide)).2

/-- Claim C5: a playlist without stream-info lines yields exactly one
fallback option of type `hls` whose URL is the original playlist URL. -/
theorem inspect_url_no_variants_fallback (w : World) (url : String) (r : HttpResponse)
    (hp : probeResponse w url = some r)
    (hhtml : pyIn "text/html" (pyLower r.contentType) = false)
    (hm : (pyIn "mpegurl" (pyLower r.contentType) || pyEndsWith (pyLower url) ".m3u8") = true)
    (hpl : (w.getResp url).status = 200)
    (hnone : ∀ l ∈ pySplitlines (w.getResp url).body, isStreamInf l = false) :
    (inspect_url w url).1 = ([fallbackOption url], none) ∧
    (fallbackOption url).url = url ∧ (fallbackOption url).type = "hls" := by
  have hvar := hlsVariantOptions_nil url _ hnone
  rw [inspect_url_hls_branch w url r hp hhtml hm hpl, hvar]
  exact ⟨by simp, rfl, rfl⟩

/-- Witness for C5 at the concrete media playlist (no stream-info lines). -/
theorem inspect_url_no_variants_fallback_witness :
    (inspect_url wFlat flatUrl).1 = ([fallbackOption flatUrl], none) :=
  (inspect_url_no_variants_fallback wFlat flatUrl
    { status := 200, contentType := "application/vnd.apple.mpegurl", body := "" }
    (by decide) (by decide) (by decide) (by decide) (by decide)).1

/-- Claim C9: a probed URL that is neither HTML nor HLS yields exactly one
`direct` option whose extension comes from the URL path (default `mp4`) and
whose MIME type comes from the static `MIME_MAP` table, every unknown
extension mapping to `video/mp4`. -/
theorem inspect_url_direct_media (w : World) (url : String) (r : HttpResponse)
    (hp : probeResponse w url = some r)
    (hhtml : pyIn "text/html" (pyLower r.contentType) = false)
    (hm : (pyIn "mpegurl" (pyLower r.contentType) || pyEndsWith (pyLower url) ".m3u8") = false) :
    (inspect_url w url).1 = ([directOption url], none) ∧
    (directOption url).type = "direct" ∧
    (directOption url).extension = directExtension url ∧
    (directOption url).mime = (MIME_MAP.lookup (directExtension url)).getD "video/mp4" ∧
    (∀ u : String, pyLstripDots (pySplitext (pyBasename (urlPath u))).2 = "" →
      directExtension u = "mp4") ∧
    MIME_MAP.lookup "mp4" = some "video/mp4" ∧
    MIME_MAP.lookup "mov" = some "video/quicktime" ∧
    MIME_MAP.lookup "avi" = some "video/x-msvideo" ∧
    MIME_MAP.lookup "mkv" = some "video/x-matroska" ∧
    MIME_MAP.lookup "ts" = some "video/mp2t" := by
  refine ⟨inspect_url_direct_branch w url r hp hhtml hm, by simp [directOption],
    by simp [directOption], by simp [directOption], ?_,
    by decide, by decide, by decide, by decide, by decide⟩
  intro u hu
  simp [directExtension, hu]

/-- Witness for C9 at a plain `mp4` URL. -/
theorem inspect_url_direct_media_witness :
    (inspect_url wDirect "http://h/a.mp4").1 = ([directOption "http://h/a.mp4"], none) :=
  (inspect_url_direct_media wDirect "http://h/a.mp4"
    { status := 200, contentType := "video/mp4", body := "" }
    (by decide) (by decide) (by decide)).1

/-- Claim C6: on the page with `<video src="a.mp4">` and `<a href="b.m3u8">`
and no other candidates, `extract_video_links` returns exactly a
`direct`/`mp4` option for `a.mp4` and an `hls` option for `b.m3u8`, both
resolved against the base URL; and for every input its result is strictly
sorted by resolved URL (hence deduplicated). -/
theorem extract_video_links_example_and_sorted :
    extract_video_links c6Html c6Base =
      [{ label := "Видео (mp4)", url := "http://e.com/a.mp4", extension := "mp4",
         mime := "video/mp4", type := "direct", format_id := none },
       { label := "HLS (m3u8)", url := "http://e.com/b.m3u8", extension := "ts",
         mime := "video/mp2t", type := "hls", format_id := none }] ∧
    ∀ html base : String,
      ((extract_video_links html base).map (fun o => o.url)).Pairwise
        (fun a b => strLtB a b = true) ∧
      (extract_video_links html base).Nodup := by
  constructor
  · decide
  · intro html base
    have hpw : ((extract_video_links html base).map (fun o => o.url)).Pairwise
        (fun a b => strLtB a b = true) :=
      pairwise_filterMap_url _ (sortedDedup_pairwise _)
    refine ⟨hpw, ?_⟩
    have hpw2 : (extract_video_links html base).Pairwise
        (fun o1 o2 => strLtB o1.url o2.url = true) := (List.pairwise_map).mp hpw
    refine List.Pairwise.imp ?_ hpw2
    intro o1 o2 h heq
    exact strLtB_ne o1.url o2.url h (congrArg DownloadOption.url heq)

/-- Claim C8: an empty URL, or one starting with neither `http://` nor
`https://`, makes both the inspect and the download handler stop with the
empty-URL or invalid-scheme outcome, and the request log stays empty — no
network call is attempted. -/
theorem actions_reject_invalid_url (w : World) (url selected_label : String)
    (options : List DownloadOption) (use_ytdlp : Bool)
    (h : url = "" ∨ (pyStartsWith url "http://" || pyStartsWith url "https://") = false) :
    ((inspectAction w url use_ytdlp).1 = InspectOutcome.emptyUrl ∨
     (inspectAction w url use_ytdlp).1 = InspectOutcome.invalidScheme) ∧
    (inspectAction w url use_ytdlp).2 = [] ∧
    ((downloadAction w url options selected_label).1 = DownloadOutcome.emptyUrl ∨
     (downloadAction w url options selected_label).1 = DownloadOutcome.invalidScheme) ∧
    (downloadAction w url options selected_label).2 = [] := by
  by_cases hurl : url = ""
  · subst hurl
    unfold inspectAction downloadAction
    simp
  · have hs : (pyStartsWith url "http://" || pyStartsWith url "https://") = false := by
      rcases h with h | h
      · exact absurd h hurl
      · exact h
    unfold inspectAction downloadAction
    simp [hurl, hs]

/-- Witness for C8 at a `ftp://` URL. -/
theorem actions_reject_invalid_url_witness :
    ((inspectAction wDirect "ftp://x" false).1 = InspectOutcome.emptyUrl ∨
     (inspectAction wDirect "ftp://x" false).1 = InspectOutcome.invalidScheme) ∧
    (inspectAction wDirect "ftp://x" false).2 = [] ∧
    ((downloadAction wDirect "ftp://x" [] "lbl").1 = DownloadOutcome.emptyUrl ∨
     (downloadAction wDirect "ftp://x" [] "lbl").1 = DownloadOutcome.invalidScheme) ∧
    (downloadAction wDirect "ftp://x" [] "lbl").2 = [] :=
  actions_reject_invalid_url wDirect "ftp://x" "lbl" [] false (Or.inr (by decide))

/-- Claim C10: every option of type `hls` produced by `inspect_url` or by
`extract_video_links` — variant stream, whole-playlist fallback, or
extracted `.m3u8` link alike — has extension `ts` and MIME type
`video/mp2t`. -/
theorem hls_options_ts_mp2t :
    (∀ (w : World) (url : String) (opt : DownloadOption),
      opt ∈ (inspect_url w url).1.1 → opt.type = "hls" →
      opt.extension = "ts" ∧ opt.mime = "video/mp2t") ∧
    (∀ (html base : String) (opt : DownloadOption),
      opt ∈ extract_video_links html base → opt.type = "hls" →
      opt.extension = "ts" ∧ opt.mime = "video/mp2t") := by
  constructor
  · intro w url opt hmem ht
    rcases inspect_url_options_cases w url with h | h | h | h | h <;> rw [h] at hmem
    · cases hmem
    · exact mem_extract_hls _ _ opt hmem ht
    · exact (mem_hlsVariantOptions url _ opt hmem).2
    · rw [List.mem_singleton] at hmem
      subst hmem
      exact ⟨rfl, rfl⟩
    · rw [List.mem_singleton] at hmem
      subst hmem
      simp [directOption] at ht
  · intro html base opt hmem ht
    exact mem_extract_hls html base opt hmem ht

/-- Witness for C10 at the concrete fallback option. -/
theorem hls_options_ts_mp2t_witness :
    (fallbackOption flatUrl).extension = "ts" ∧ (fallbackOption flatUrl).mime = "video/mp2t" :=
  hls_options_ts_mp2t.1 wFlat flatUrl (fallbackOption flatUrl) (by decide) (by decide)
